import Mathlib

/-!
# Verification of the AI-daily digest pipeline

A shallow embedding of the core of `send_ai_daily.py`: the
dedup store, the fetch filter, the scoring orchestrator, the digest
repair step, the Feishu delivery loop with its signature, and the
pipeline driver.  Machine integers are `Nat` with explicit reduction
modulo 2^32 where the source relies on 32-bit wrap-around (SHA-256);
scores are `Rat` (JSON numbers); Python `str` is Lean `String`
(both sequences of unicode code points); Python `set` of hex digests is
`Finset String`.
-/

namespace SendAiDaily

/-! ## Byte-level primitives: UTF-8, SHA-256, HMAC, base64, hex

The source uses `hashlib.sha256`, `hmac.new(..., digestmod=hashlib.sha256)`
and `base64.b64encode` from the Python standard library; these are embedded
here as executable functions on byte lists (`List Nat`, each element < 256).
-/

/-- Reduce to a 32-bit word. -/
def w32 (n : Nat) : Nat := n % 4294967296

/-- Right rotation of a 32-bit word. -/
def rotr (x n : Nat) : Nat := w32 ((x >>> n) ||| (x <<< (32 - n)))

def shaCh (x y z : Nat) : Nat := (x &&& y) ^^^ ((x ^^^ 0xffffffff) &&& z)

def shaMaj (x y z : Nat) : Nat := (x &&& y) ^^^ (x &&& z) ^^^ (y &&& z)

def bigSigma0 (x : Nat) : Nat := (rotr x 2) ^^^ (rotr x 13) ^^^ (rotr x 22)

def bigSigma1 (x : Nat) : Nat := (rotr x 6) ^^^ (rotr x 11) ^^^ (rotr x 25)

def smallSigma0 (x : Nat) : Nat := (rotr x 7) ^^^ (rotr x 18) ^^^ (x >>> 3)

def smallSigma1 (x : Nat) : Nat := (rotr x 17) ^^^ (rotr x 19) ^^^ (x >>> 10)

/-- The 64 SHA-256 round constants (FIPS 180-4), written in decimal. -/
def shaK : List Nat :=
  [1116352408, 1899447441, 3049323471, 3921009573, 961987163,
   1508970993, 2453635748, 2870763221, 3624381080, 310598401,
   607225278, 1426881987, 1925078388, 2162078206, 2614888103,
   3248222580, 3835390401, 4022224774, 264347078, 604807628,
   770255983, 1249150122, 1555081692, 1996064986, 2554220882,
   2821834349, 2952996808, 3210313671, 3336571891, 3584528711,
   113926993, 338241895, 666307205, 773529912, 1294757372,
   1396182291, 1695183700, 1986661051, 2177026350, 2456956037,
   2730485921, 2820302411, 3259730800, 3345764771, 3516065817,
   3600352804, 4094571909, 275423344, 430227734, 506948616,
   659060556, 883997877, 958139571, 1322822218, 1537002063,
   1747873779, 1955562222, 2024104815, 2227730452, 2361852424,
   2428436474, 2756734187, 3204031479, 3329325298]

/-- The SHA-256 initial hash value (FIPS 180-4), written in decimal. -/
def shaH0 : List Nat :=
  [1779033703, 3144134277, 1013904242, 2773480762,
   1359893119, 2600822924, 528734635, 1541459225]

/-- `k` bytes of `n`, big-endian. -/
def beBytes (k : Nat) (n : Nat) : List Nat :=
  (List.range k).map (fun i => (n >>> (8 * (k - 1 - i))) % 256)

/-- SHA-256 padding: append `0x80`, zeros to 56 mod 64, then the bit
length as 8 big-endian bytes. -/
def shaPad (msg : List Nat) : List Nat :=
  let len := msg.length
  let zeros := (120 - ((len + 1) % 64)) % 64
  msg ++ [0x80] ++ List.replicate zeros 0 ++ beBytes 8 (8 * len)

/-- Group bytes into big-endian 32-bit words. -/
def bytesToWords : List Nat → List Nat
  | a :: b :: c :: d :: rest =>
      (a * 16777216 + b * 65536 + c * 256 + d) :: bytesToWords rest
  | _ => []

/-- Extend the 16-word block to the 64-word message schedule (`n` more words). -/
def extendSchedule (ws : List Nat) : Nat → List Nat
  | 0 => ws
  | n + 1 =>
      let t := ws.length
      let w := w32 (smallSigma1 (ws.getD (t - 2) 0) + ws.getD (t - 7) 0 +
                    smallSigma0 (ws.getD (t - 15) 0) + ws.getD (t - 16) 0)
      extendSchedule (ws ++ [w]) n

/-- One SHA-256 round: the state is the 8-word working vector, `kw` the
round constant paired with the schedule word. -/
def shaRound (state : List Nat) (kw : Nat × Nat) : List Nat :=
  match state with
  | [a, b, c, d, e, f, g, h] =>
      let t1 := w32 (h + bigSigma1 e + shaCh e f g + kw.1 + kw.2)
      let t2 := w32 (bigSigma0 a + shaMaj a b c)
      [w32 (t1 + t2), a, b, c, w32 (d + t1), e, f, g]
  | s => s

/-- Compress one 64-byte block into the running hash state. -/
def compressBlock (h : List Nat) (block : List Nat) : List Nat :=
  let ws := extendSchedule (bytesToWords block) 48
  let fin := (shaK.zip ws).foldl shaRound h
  (h.zip fin).map (fun p => w32 (p.1 + p.2))

/-- Split a byte list into 64-byte chunks; the fuel argument (instantiated
with the list length, which dominates the chunk count) keeps the recursion
structural. -/
def chunks64Go : Nat → List Nat → List (List Nat)
  | 0, _ => []
  | _, [] => []
  | fuel + 1, a :: rest => (a :: rest).take 64 :: chunks64Go fuel ((a :: rest).drop 64)

/-- Split a byte list into 64-byte chunks. -/
def chunks64 (l : List Nat) : List (List Nat) := chunks64Go l.length l

/-- SHA-256 of a byte list, as 32 bytes. -/
def sha256 (msg : List Nat) : List Nat :=
  ((chunks64 (shaPad msg)).foldl compressBlock shaH0).foldr
    (fun w acc => beBytes 4 w ++ acc) []

/-- HMAC-SHA256 (RFC 2104): `H ((K xor opad) ++ H ((K xor ipad) ++ msg))`
with the key zero-padded (or hashed first when longer than one block). -/
def hmacSha256 (key msg : List Nat) : List Nat :=
  let k0 := if key.length > 64 then sha256 key else key
  let k := k0 ++ List.replicate (64 - k0.length) 0
  let ipadded := k.map (fun b => b ^^^ 0x36)
  let opadded := k.map (fun b => b ^^^ 0x5c)
  sha256 (opadded ++ sha256 (ipadded ++ msg))

/-- UTF-8 encoding of one unicode scalar value. -/
def utf8Char (c : Char) : List Nat :=
  let n := c.toNat
  if n < 0x80 then [n]
  else if n < 0x800 then
    [0xc0 ||| (n >>> 6), 0x80 ||| (n &&& 0x3f)]
  else if n < 0x10000 then
    [0xe0 ||| (n >>> 12), 0x80 ||| ((n >>> 6) &&& 0x3f), 0x80 ||| (n &&& 0x3f)]
  else
    [0xf0 ||| (n >>> 18), 0x80 ||| ((n >>> 12) &&& 0x3f),
     0x80 ||| ((n >>> 6) &&& 0x3f), 0x80 ||| (n &&& 0x3f)]

/-- UTF-8 encoding of a string (Python `str.encode("utf-8")`). -/
def utf8Bytes (s : String) : List Nat :=
  s.data.foldr (fun c acc => utf8Char c ++ acc) []

/-- The base64 alphabet. -/
def b64Char (n : Nat) : Char :=
  "ABCDEFGHIJKLMNOPQRSTUVWXYZabcdefghijklmnopqrstuvwxyz0123456789+/".data.getD n 'A'

/-- Base64 encoding, 3 bytes to 4 characters, with `=` padding. -/
def b64Groups : List Nat → List Char
  | a :: b :: c :: rest =>
      let n := a * 65536 + b * 256 + c
      b64Char (n / 262144) :: b64Char (n / 4096 % 64) ::
        b64Char (n / 64 % 64) :: b64Char (n % 64) :: b64Groups rest
  | [a, b] =>
      let n := a * 65536 + b * 256
      [b64Char (n / 262144), b64Char (n / 4096 % 64), b64Char (n / 64 % 64), '=']
  | [a] =>
      let n := a * 65536
      [b64Char (n / 262144), b64Char (n / 4096 % 64), '=', '=']
  | [] => []

/-- `base64.b64encode(...).decode("utf-8")`. -/
def base64encode (bs : List Nat) : String := String.mk (b64Groups bs)

/-- Lower-case hex digit. -/
def hexDigit (n : Nat) : Char := "0123456789abcdef".data.getD n '0'

/-- `.hexdigest()`: lower-case hex of a byte list. -/
def hexEncode (bs : List Nat) : String :=
  String.mk (bs.foldr (fun b acc => hexDigit (b / 16) :: hexDigit (b % 16) :: acc) [])

/-- `hash_link` (send_ai_daily.py line 302): SHA-256 hex digest of the
UTF-8 encoded link. -/
def hash_link (link : String) : String := hexEncode (sha256 (utf8Bytes link))

/-! ## Configuration constants (send_ai_daily.py lines 49-53) -/

def TOP_N : Nat := 3

def MAX_CANDIDATES : Nat := 60

def HOURS_WINDOW : Nat := 48

/-! ## Recency filter (`is_recent`, lines 305-313)

`dateutil.parser.parse` is an external collaborator; it is embedded as a
function `parse : String → Option ParsedTime` where `none` models a parse
exception (caught by `is_recent`, which then returns `False`).  A parsed
time is a naive wall-clock instant in seconds together with an optional
timezone offset; `datetime.now(timezone.utc)` is the explicit `now`
parameter (epoch seconds). -/

structure ParsedTime where
  seconds : Int
  tzOffset : Option Int
deriving DecidableEq

/-- The UTC epoch instant of a parsed time.  A missing timezone is
replaced by UTC (`pub_time.replace(tzinfo=timezone.utc)`, line 309), i.e.
the naive seconds are read as UTC directly. -/
def toUtcEpoch (p : ParsedTime) : Int := p.seconds - p.tzOffset.getD 0

/-- `is_recent` (lines 305-313): parse the published string; on failure
return false; otherwise true iff `now - pub_time <= timedelta(hours)`. -/
def is_recent (parse : String → Option ParsedTime) (now : Int) (hours : Nat)
    (published : String) : Bool :=
  match parse published with
  | none => false
  | some p => decide (now - toUtcEpoch p ≤ (hours : Int) * 3600)

/-! ## Fetch filter (`fetch_single_feed`, lines 316-353) -/

/-- One parsed feed entry as seen by the filter loop: `entry.get("link","")`,
the resolved `published`/`updated` string, title and summary. -/
structure FeedEntry where
  link : String
  published : String
  title : String
  summary : String
deriving DecidableEq

/-- A candidate dict as built at lines 343-349. -/
structure Candidate where
  title : String
  link : String
  summary : String
  published : String
  hash : String
deriving DecidableEq

/-- Summary truncation (lines 340-341): `summary[:500] + "..."` when
`len(summary) > 500`, by unicode code points. -/
def truncSummary (s : String) : String :=
  if s.length > 500 then String.mk (s.data.take 500) ++ "..." else s

/-- The per-entry filter of `fetch_single_feed` (lines 325-349): skip an
entry with an empty link, with a fingerprint already in `sent`, or that is
not recent; otherwise build the candidate with the truncated summary. -/
def fetch_filter (parse : String → Option ParsedTime) (now : Int)
    (sent : Finset String) (entries : List FeedEntry) : List Candidate :=
  entries.filterMap fun e =>
    if e.link = "" then none
    else if hash_link e.link ∈ sent then none
    else if is_recent parse now HOURS_WINDOW e.published then
      some ⟨e.title, e.link, truncSummary e.summary, e.published, hash_link e.link⟩
    else none

/-! ## Scoring orchestrator (`score_entries`, lines 400-435) -/

/-- One element of the scoring oracle response array `{link, score, reason}`.
`score` is optional because the sort key is `x.get("score", 0)` (line 420);
the source stores `s["score"]` unchanged into the selected entry, which the
embedding mirrors by carrying the optional value through. -/
structure ScoreResp where
  link : String
  score : Option Rat
  reason : String
deriving DecidableEq

/-- A selected entry: the candidate dict copied and extended with
`score` and `score_reason` (lines 429-432). -/
structure ScoredEntry where
  entry : Candidate
  score : Option Rat
  reason : String
deriving DecidableEq

/-- The sort key `x.get("score", 0)` (line 420). -/
def scoreKey (s : ScoreResp) : Rat := s.score.getD 0

/-- The comparison of `list.sort(key=..., reverse=True)`: an element may
precede another iff its key is at least the other's. -/
def scoreGe (a b : ScoreResp) : Prop := scoreKey b ≤ scoreKey a

instance : DecidableRel scoreGe :=
  fun a b => inferInstanceAs (Decidable (scoreKey b ≤ scoreKey a))

instance : IsTotal ScoreResp scoreGe :=
  ⟨fun a b => le_total (scoreKey b) (scoreKey a)⟩

instance : IsTrans ScoreResp scoreGe :=
  ⟨fun _ _ _ h1 h2 => le_trans h2 h1⟩

/-- `scores.sort(key=lambda x: x.get("score", 0), reverse=True)` (line 420):
Python's sort is stable, and a stable sort by a total preorder is uniquely
determined, so it is embedded as the stable insertion sort with the
non-strict descending comparison (ties keep the response order). -/
def sortScores (scores : List ScoreResp) : List ScoreResp :=
  List.insertionSort scoreGe scores

/-- `link_map = {e["link"]: e for e in entries}` followed by lookup: a dict
comprehension keeps the last entry for a duplicated key. -/
def linkLookup (entries : List Candidate) (l : String) : Option Candidate :=
  entries.reverse.find? (fun e => e.link == l)

/-- `score_entries` (lines 400-435) after the oracle call: sort the
response by score descending (stable), truncate to `TOP_N`, then keep only
entries whose link is among the candidates, copying the candidate and
attaching score and reason. -/
def score_entries (entries : List Candidate) (scores : List ScoreResp) :
    List ScoredEntry :=
  if entries.isEmpty then []
  else
    ((sortScores scores).take TOP_N).filterMap fun s =>
      (linkLookup entries s.link).map fun e => ⟨e, s.score, s.reason⟩

/-! ## Digest repair (`validate_and_fix_report`, lines 475-491) -/

/-- One digest item as a partial JSON object: every key optional. -/
structure RawItem where
  title : Option String
  publish_date : Option String
  source_type : Option String
  source_name : Option String
  erp_relevance : Option String
  summary : Option String
  key_facts : Option String
  implementation_method : Option String
  exploration_direction : Option String
  link : Option String
deriving DecidableEq

/-- The `items` key of the synthesis response: absent, present but not a
list, or a list of items. -/
inductive ItemsField
  | absent
  | nonList
  | list (l : List RawItem)
deriving DecidableEq

/-- A synthesis oracle response. -/
structure RawReport where
  date : Option String
  theme : Option String
  items : ItemsField
deriving DecidableEq

/-- The items of a report, reading a missing or non-list `items` key as
the empty list. -/
def reportItems (r : RawReport) : List RawItem :=
  match r.items with
  | ItemsField.list l => l
  | _ => []

/-- Per-item repair (lines 484-488): fill exactly `title`, `source_type`,
`erp_relevance` and `summary` when missing; all other keys untouched. -/
def fixItem (it : RawItem) : RawItem :=
  { it with
    title := some (it.title.getD "未知标题")
    source_type := some (it.source_type.getD "未知")
    erp_relevance := some (it.erp_relevance.getD "🔵 低")
    summary := some (it.summary.getD "暂无摘要") }

/-- `validate_and_fix_report` (lines 475-491).  `today` is the current
UTC+8 civil date string computed at line 477, passed explicitly. -/
def validate_and_fix_report (today : String) (r : RawReport) : RawReport :=
  { date := some (r.date.getD today)
    theme := some (r.theme.getD "AI 技术动态")
    items := ItemsField.list ((reportItems r).map fixItem) }

/-! ## Feishu delivery (`send_to_feishu`, lines 494-562) -/

/-- The signature construction (lines 500-504): with a configured secret,
`hmac.new(string_to_sign.encode("utf-8"), digestmod=hashlib.sha256)` — the
string `"{timestamp}\n{secret}"` is the HMAC KEY and the message is empty —
then base64; with no secret the sign stays the empty string. -/
def feishu_sign (timestamp secret : String) : String :=
  if secret = "" then ""
  else base64encode (hmacSha256 (utf8Bytes (timestamp ++ "\n" ++ secret)) [])

/-- Timestamp-and-sign pair attached alongside the payload (lines 499, 542-547). -/
structure FeishuAuth where
  timestamp : String
  sign : String
deriving DecidableEq

/-- `timestamp = str(int(time.time()))` and the signature (lines 499-504),
with the wall clock passed explicitly. -/
def feishu_auth (now : Int) (secret : String) : FeishuAuth :=
  { timestamp := toString now, sign := feishu_sign (toString now) secret }

/-- The reading of the signature sentence under which the
timestamp-and-secret string is the DATA the HMAC is computed over (with the
secret as the key), stated for comparison with `feishu_sign`. -/
def feishu_sign_claimReading (timestamp secret : String) : String :=
  if secret = "" then ""
  else base64encode (hmacSha256 (utf8Bytes secret) (utf8Bytes (timestamp ++ "\n" ++ secret)))

/-- Outcome of one POST attempt: an HTTP-level response carrying the
application `code` field, or an exception (network error, non-2xx status
raised by `raise_for_status`, JSON decode failure). -/
inductive SinkOutcome
  | httpOk (code : Int)
  | exn
deriving DecidableEq

/-- What one run of the retry loop did: whether it returned after a
`code == 0` response, how many attempts it made, and the sleeps (seconds)
it performed between attempts. -/
structure DeliverResult where
  delivered : Bool
  attempts : Nat
  sleeps : List Nat
deriving DecidableEq

/-- The retry loop body (lines 549-562), with `i` the current value of
`attempt` and the second argument the remaining iterations.  A `code == 0`
response returns immediately; a non-zero code logs and retries with NO
sleep; an exception sleeps `2 ** attempt` seconds unless this was the last
iteration. -/
def feishuGo (sink : Nat → SinkOutcome) (i : Nat) : Nat → DeliverResult
  | 0 => { delivered := false, attempts := 0, sleeps := [] }
  | r + 1 =>
    match sink i with
    | SinkOutcome.httpOk c =>
      if c = 0 then { delivered := true, attempts := 1, sleeps := [] }
      else
        let rest := feishuGo sink (i + 1) r
        { delivered := rest.delivered, attempts := rest.attempts + 1, sleeps := rest.sleeps }
    | SinkOutcome.exn =>
      let rest := feishuGo sink (i + 1) r
      { delivered := rest.delivered, attempts := rest.attempts + 1,
        sleeps := (if 0 < r then [2 ^ i] else []) ++ rest.sleeps }

/-- `send_to_feishu` with a configured webhook (lines 549-562): the
`for attempt in range(3)` loop.  All exceptions are caught inside the loop,
so the function always returns to its caller; after three failures it only
logs the final failure. -/
def send_to_feishu_retry (sink : Nat → SinkOutcome) : DeliverResult :=
  feishuGo sink 0 3

/-! ## Dedup store (`load_sent_hashes` / `save_sent_hashes`, lines 286-300) -/

/-- `load_sent_hashes` (lines 286-293) applied to the lines of the file:
the set of stripped non-blank lines. -/
def load_sent_hashes (lines : List String) : Finset String :=
  (((lines.map String.trim).filter (fun l => l ≠ ""))).toFinset

/-- `save_sent_hashes` (lines 295-300): the lines written to the file, one
hash per line, iterating `sorted(hashes)`. -/
def save_sent_hashes (hashes : Finset String) : List String :=
  hashes.sort (· ≤ ·)

/-! ## Pipeline driver (`main`, lines 565-596) -/

/-- Result of one oracle `call_json`: structured JSON, or a fatal failure
(`OpenAIClient.call_json` and its siblings call `sys.exit(1)` on any
exception, lines 149-157). -/
inductive OracleResult (α : Type)
  | ok (a : α)
  | failure
deriving DecidableEq

/-- What a run did to durable state: whether it died in `sys.exit(1)`
inside an oracle call, and the fingerprint set handed to
`save_sent_hashes` (none when the save step was never reached). -/
structure MainTrace where
  fatalExit : Bool
  storeWritten : Option (Finset String)
deriving DecidableEq

/-- `main` (lines 565-596) from the point the candidates are known.
`storeAtEnd` is the fingerprint set re-loaded at line 592, `scoreOracle`
and `synthOracle` the outcomes of the two oracle calls, `delivery` the
sink behaviour.  Persistence (lines 592-595) unions the re-loaded set with
the hashes of the scored top entries and saves; it runs only after
delivery returns, and `send_to_feishu` never raises. -/
def main_model (storeAtEnd : Finset String) (candidates : List Candidate)
    (scoreOracle : OracleResult (List ScoreResp))
    (synthOracle : OracleResult RawReport)
    (today : String) (delivery : Nat → SinkOutcome) : MainTrace :=
  if candidates.isEmpty then { fatalExit := false, storeWritten := none }
  else
    match scoreOracle with
    | OracleResult.failure => { fatalExit := true, storeWritten := none }
    | OracleResult.ok scores =>
      let top := score_entries candidates scores
      if top.isEmpty then { fatalExit := false, storeWritten := none }
      else
        match synthOracle with
        | OracleResult.failure => { fatalExit := true, storeWritten := none }
        | OracleResult.ok raw =>
          let _report := validate_and_fix_report today raw
          let _sent := send_to_feishu_retry delivery
          { fatalExit := false
            storeWritten := some (storeAtEnd ∪ (top.map (fun e => e.entry.hash)).toFinset) }

/-- Four feed entries, all with non-empty links and parse-able timestamps,
used to exercise the two-run dedup behaviour. -/
def c6entries : List FeedEntry :=
  [⟨"a", "t", "ta", "sa"⟩, ⟨"b", "t", "tb", "sb"⟩,
   ⟨"c", "t", "tc", "sc"⟩, ⟨"d", "t", "td", "sd"⟩]

/-- A scoring response covering all four links of `c6entries`. -/
def c6scores : List ScoreResp :=
  [⟨"a", some 4, "r"⟩, ⟨"b", some 3, "r"⟩, ⟨"c", some 2, "r"⟩, ⟨"d", some 1, "r"⟩]

/-! ## Theorems -/

/-- `filterMap` produces one output per input when the function is total
on the list. -/
theorem length_filterMap_of_isSome {α β : Type} (f : α → Option β) :
    ∀ l : List α, (∀ a ∈ l, (f a).isSome) → (l.filterMap f).length = l.length := by
  intro l h
  induction l with
  | nil => rfl
  | cons a t ih =>
    rcases ho : f a with _ | b
    · exact absurd (h a (by simp)) (by simp [ho])
    · rw [List.filterMap_cons, ho]
      simp only [List.length_cons]
      rw [ih (fun x hx => h x (by simp [hx]))]

set_option maxRecDepth 4000 in
/-- C7 (counterexample): a 501-character summary is NOT truncated to at
most 500 characters: `summary[:500] + "..."` has 503 characters, so the
claimed bound "at most 500 characters long" fails. -/
theorem c7_counterexample :
    (truncSummary (String.mk (List.replicate 501 'a'))).length = 503 ∧
    ¬ (truncSummary (String.mk (List.replicate 501 'a'))).length ≤ 500 := by
  constructor <;> decide

/-- C7 (amended): a summary of at most 500 characters is kept unchanged;
a longer one becomes its first 500 characters followed by the ellipsis
marker `"..."`, for a total of 503 characters (so the result is at most
503, not 500, characters long). -/
theorem c7_truncSummary_spec (s : String) :
    (s.length ≤ 500 → truncSummary s = s) ∧
    (500 < s.length →
      truncSummary s = String.mk (s.data.take 500) ++ "..." ∧
      (truncSummary s).length = 503) := by
  constructor
  · intro h
    unfold truncSummary
    rw [if_neg (by omega)]
  · intro h
    unfold truncSummary
    rw [if_pos (by omega)]
    refine ⟨rfl, ?_⟩
    have hlen : s.data.length = s.length := rfl
    have h3 : ("..." : String).length = 3 := rfl
    simp only [String.length_append, String.length_mk, List.length_take, h3]
    omega

set_option maxRecDepth 4000 in
/-- Witness for C7: evaluating the amended statement at a short and at a
501-character summary. -/
theorem c7_truncSummary_spec_witness :
    truncSummary "ab" = "ab" ∧
    (truncSummary (String.mk (List.replicate 501 'a'))).length = 503 :=
  ⟨(c7_truncSummary_spec "ab").1 (by decide),
   ((c7_truncSummary_spec (String.mk (List.replicate 501 'a'))).2 (by decide)).2⟩

/-- C8 (confirmed): the recency filter is boundary-inclusive at the lower
edge: a publication instant equal to `now - window` is included, one one
second older is excluded, and a parsed time without timezone information
is read as UTC (offset zero) before the comparison. -/
theorem c8_is_recent_boundary (parse : String → Option ParsedTime)
    (now : Int) (s : String) (p : ParsedTime) (hp : parse s = some p) :
    (toUtcEpoch p = now - (HOURS_WINDOW : Int) * 3600 →
      is_recent parse now HOURS_WINDOW s = true) ∧
    (toUtcEpoch p = now - (HOURS_WINDOW : Int) * 3600 - 1 →
      is_recent parse now HOURS_WINDOW s = false) ∧
    (p.tzOffset = none → toUtcEpoch p = p.seconds) := by
  refine ⟨?_, ?_, ?_⟩ <;> intro h
  · unfold is_recent
    rw [hp]
    simp only [decide_eq_true_eq, h]
    omega
  · unfold is_recent
    rw [hp]
    simp only [decide_eq_false_iff_not, h]
    omega
  · unfold toUtcEpoch
    rw [h]
    simp

/-- Witness for C8: with a window of 48 hours (172800 seconds), a naive
(timezone-less) timestamp at epoch 0 is included at `now = 172800` and one
at epoch -1 is excluded. -/
theorem c8_is_recent_boundary_witness :
    is_recent (fun _ => some ⟨0, none⟩) 172800 HOURS_WINDOW "t" = true ∧
    is_recent (fun _ => some ⟨-1, none⟩) 172800 HOURS_WINDOW "t" = false :=
  ⟨(c8_is_recent_boundary (fun _ => some ⟨0, none⟩) 172800 "t" ⟨0, none⟩ rfl).1 (by decide),
   (c8_is_recent_boundary (fun _ => some ⟨-1, none⟩) 172800 "t" ⟨-1, none⟩ rfl).2.1 (by decide)⟩

set_option maxRecDepth 10000 in
/-- C9 (counterexample): the timestamp-and-secret string is NOT the data
the HMAC is computed over — it is the KEY, and the message is empty.  At
timestamp "1" and secret "s" the code's signature (cross-checked against
Python's `hmac` module) differs from the signature obtained by reading the
string as HMAC data with the secret as key. -/
theorem c9_counterexample :
    feishu_sign "1" "s" = "Aji9f9KnE+NSTTWD7FoMRScEWzzWaOXvPLe5gQB012o=" ∧
    feishu_sign "1" "s" ≠ feishu_sign_claimReading "1" "s" := by
  constructor <;> decide

/-- C9 (amended): when a secret is configured, the attached signature is
the base64 encoding of an HMAC-SHA256 whose KEY is the UTF-8 encoding of
`"{unixTimestamp}\n{secret}"` and whose message is the empty byte string,
attached together with the timestamp; with no secret the signature is the
empty string. -/
theorem c9_sign_spec (now : Int) (secret : String) :
    (feishu_auth now secret).timestamp = toString now ∧
    (secret = "" → (feishu_auth now secret).sign = "") ∧
    (secret ≠ "" → (feishu_auth now secret).sign =
      base64encode (hmacSha256 (utf8Bytes (toString now ++ "\n" ++ secret)) [])) := by
  refine ⟨rfl, ?_, ?_⟩ <;> intro h <;> simp [feishu_auth, feishu_sign, h]

/-- Witness for C9: evaluating the amended statement at timestamp 1 with
secret "s" and with the empty secret. -/
theorem c9_sign_spec_witness :
    (feishu_auth 1 "s").sign =
      base64encode (hmacSha256 (utf8Bytes (toString (1 : Int) ++ "\n" ++ "s")) []) ∧
    (feishu_auth 1 "").sign = "" :=
  ⟨(c9_sign_spec 1 "s").2.2 (by decide), (c9_sign_spec 1 "").2.1 rfl⟩

/-- C3 (counterexample): the backoff after the first failed attempt is
`2 ** 0 = 1` second and after the second `2 ** 1 = 2` seconds — not 2 and
4 seconds as claimed.  A sink that raises twice and accepts on the third
attempt yields success after exactly 3 attempts with sleeps `[1, 2]`. -/
theorem c3_counterexample :
    (send_to_feishu_retry
        (fun i => if i < 2 then SinkOutcome.exn else SinkOutcome.httpOk 0)) =
      { delivered := true, attempts := 3, sleeps := [1, 2] } ∧
    ([1, 2] : List Nat) ≠ [2, 4] := by
  constructor <;> decide

/-- C3 (amended): `send_to_feishu` makes at most 3 attempts; a sink that
fails twice then returns application code 0 on the third attempt yields
success after exactly 3 attempts; a sink failing on all 3 attempts yields
failure after 3 attempts, the loop returning normally to its caller
(every exception is caught inside the loop).  Between attempts the wait is
`2 ** attempt` seconds — 1s after the first failed attempt, 2s after the
second — and only for exception-path failures: a non-zero application
code retries with no sleep at all. -/
theorem c3_retry_spec (sink : Nat → SinkOutcome) :
    (send_to_feishu_retry sink).attempts ≤ 3 ∧
    (sink 0 ≠ SinkOutcome.httpOk 0 → sink 1 ≠ SinkOutcome.httpOk 0 →
      sink 2 = SinkOutcome.httpOk 0 →
      (send_to_feishu_retry sink).delivered = true ∧
      (send_to_feishu_retry sink).attempts = 3) ∧
    (sink 0 ≠ SinkOutcome.httpOk 0 → sink 1 ≠ SinkOutcome.httpOk 0 →
      sink 2 ≠ SinkOutcome.httpOk 0 →
      (send_to_feishu_retry sink).delivered = false ∧
      (send_to_feishu_retry sink).attempts = 3) ∧
    (sink 0 = SinkOutcome.exn → sink 1 = SinkOutcome.exn →
      (send_to_feishu_retry sink).sleeps = [1, 2]) ∧
    (∀ c c' : Int, sink 0 = SinkOutcome.httpOk c → c ≠ 0 →
      sink 1 = SinkOutcome.httpOk c' → c' ≠ 0 →
      (send_to_feishu_retry sink).sleeps = []) := by
  unfold send_to_feishu_retry
  rcases h0 : sink 0 with ⟨c0⟩ | _ <;> rcases h1 : sink 1 with ⟨c1⟩ | _ <;>
    rcases h2 : sink 2 with ⟨c2⟩ | _ <;>
    simp only [feishuGo, h0, h1, h2] <;>
    first
    | (by_cases hc0 : c0 = 0 <;> by_cases hc1 : c1 = 0 <;> by_cases hc2 : c2 = 0 <;>
        simp_all [feishuGo])
    | (by_cases hc0 : c0 = 0 <;> by_cases hc1 : c1 = 0 <;> simp_all [feishuGo])
    | (by_cases hc0 : c0 = 0 <;> by_cases hc2 : c2 = 0 <;> simp_all [feishuGo])
    | (by_cases hc1 : c1 = 0 <;> by_cases hc2 : c2 = 0 <;> simp_all [feishuGo])
    | (by_cases hc0 : c0 = 0 <;> simp_all [feishuGo])
    | (by_cases hc1 : c1 = 0 <;> simp_all [feishuGo])
    | (by_cases hc2 : c2 = 0 <;> simp_all [feishuGo])
    | simp_all [feishuGo]

/-- Witness for C3: evaluating the amended statement on a sink that raises
twice then accepts, and on a sink that always raises. -/
theorem c3_retry_spec_witness :
    ((send_to_feishu_retry
        (fun i => if i < 2 then SinkOutcome.exn else SinkOutcome.httpOk 0)).delivered = true ∧
      (send_to_feishu_retry
        (fun i => if i < 2 then SinkOutcome.exn else SinkOutcome.httpOk 0)).attempts = 3) ∧
    ((send_to_feishu_retry (fun _ => SinkOutcome.exn)).delivered = false ∧
      (send_to_feishu_retry (fun _ => SinkOutcome.exn)).attempts = 3) :=
  ⟨(c3_retry_spec (fun i => if i < 2 then SinkOutcome.exn else SinkOutcome.httpOk 0)).2.1
      (by decide) (by decide) (by decide),
   (c3_retry_spec (fun _ => SinkOutcome.exn)).2.2.1 (by decide) (by decide) (by decide)⟩

/-- C4 (counterexample): the repair step does NOT fill every omitted item
field.  For an item with all keys missing, the repaired item has
placeholders exactly for `title`, `source_type`, `erp_relevance` and
`summary`, while `publish_date`, `source_name`, `key_facts`,
`implementation_method`, `exploration_direction` and `link` stay missing,
refuting the claim that each of those is given a placeholder. -/
theorem c4_counterexample :
    reportItems (validate_and_fix_report "2026-10-12"
        ⟨none, none, ItemsField.list
          [⟨none, none, none, none, none, none, none, none, none, none⟩]⟩) =
      [⟨some "未知标题", none, some "未知", none, some "🔵 低", some "暂无摘要",
        none, none, none, none⟩] := by
  decide

/-- C4 (amended): the repair fills a missing `date` with the supplied
current UTC+8 civil date, a missing `theme` with the fixed default, reads
missing or non-list `items` as the empty sequence, and for each item fills
exactly the four fields `title`, `source_type`, `erp_relevance` and
`summary` with fixed placeholders; the remaining six item fields
(`publish_date`, `source_name`, `key_facts`, `implementation_method`,
`exploration_direction`, `link`) are passed through unchanged, possibly
still missing.  The digest is never rejected. -/
theorem c4_repair_spec (today : String) (r : RawReport) :
    (validate_and_fix_report today r).date = some (r.date.getD today) ∧
    (validate_and_fix_report today r).theme = some (r.theme.getD "AI 技术动态") ∧
    List.Forall₂ (fun a b : RawItem =>
        b.title = some (a.title.getD "未知标题") ∧
        b.source_type = some (a.source_type.getD "未知") ∧
        b.erp_relevance = some (a.erp_relevance.getD "🔵 低") ∧
        b.summary = some (a.summary.getD "暂无摘要") ∧
        b.publish_date = a.publish_date ∧ b.source_name = a.source_name ∧
        b.key_facts = a.key_facts ∧ b.implementation_method = a.implementation_method ∧
        b.exploration_direction = a.exploration_direction ∧ b.link = a.link)
      (reportItems r) (reportItems (validate_and_fix_report today r)) := by
  refine ⟨rfl, rfl, ?_⟩
  have : reportItems (validate_and_fix_report today r) = (reportItems r).map fixItem := rfl
  rw [this, List.forall₂_map_right_iff]
  rw [List.forall₂_same]
  intro a _
  simp [fixItem]

/-- C1 (counterexample): with k=3 and a response containing 3 entries
whose links are all among the candidates plus a top-scoring entry whose
link is unknown, `score_entries` returns only 2 entries: the response is
truncated to the top 3 BEFORE unknown links are filtered out, so a dropped
entry does consume top-K budget (and it is dropped silently, with no
warning). -/
theorem c1_counterexample :
    (([⟨"x", some 10, "rx"⟩, ⟨"a", some 3, "ra"⟩, ⟨"b", some 2, "rb"⟩,
        ⟨"c", some 1, "rc"⟩] : List ScoreResp).filter
      (fun s => (linkLookup
        [⟨"tA", "a", "sA", "p", "hA"⟩, ⟨"tB", "b", "sB", "p", "hB"⟩,
         ⟨"tC", "c", "sC", "p", "hC"⟩] s.link).isSome)).length = 3 ∧
    ¬ (score_entries
        [⟨"tA", "a", "sA", "p", "hA"⟩, ⟨"tB", "b", "sB", "p", "hB"⟩,
         ⟨"tC", "c", "sC", "p", "hC"⟩]
        [⟨"x", some 10, "rx"⟩, ⟨"a", some 3, "ra"⟩, ⟨"b", some 2, "rb"⟩,
         ⟨"c", some 1, "rc"⟩]).length = 3 := by
  constructor <;> decide

/-- C1 (amended): a returned entry whose link is not among the candidates
is dropped silently AFTER the truncation to the top `k = 3`, so it does
count against the top-K budget.  `score_entries` returns candidate-backed
entries in descending score order, at most `TOP_N` of them; the output has
exactly `min TOP_N |response|` entries whenever every returned link is
among the candidates (but can be shorter when an unknown link lands in the
top `k`, even if at least 3 returned links are among the candidates). -/
theorem c1_score_entries_spec (entries : List Candidate) (scores : List ScoreResp)
    (hne : entries ≠ []) :
    (∀ e ∈ score_entries entries scores, e.entry ∈ entries) ∧
    (score_entries entries scores).length ≤ TOP_N ∧
    List.Pairwise (fun a b : ScoredEntry => b.score.getD 0 ≤ a.score.getD 0)
      (score_entries entries scores) ∧
    ((∀ s ∈ scores, ∃ c ∈ entries, c.link = s.link) →
      (score_entries entries scores).length = min TOP_N scores.length) := by
  have hE : entries.isEmpty = false := by simp [hne]
  have hdef : score_entries entries scores =
      ((sortScores scores).take TOP_N).filterMap (fun s =>
        (linkLookup entries s.link).map fun e => ⟨e, s.score, s.reason⟩) := by
    simp [score_entries, hE]
  refine ⟨?_, ?_, ?_, ?_⟩
  · rw [hdef]
    intro e he
    rcases List.mem_filterMap.mp he with ⟨s, _, hfs⟩
    rcases hol : linkLookup entries s.link with _ | c
    · rw [hol] at hfs
      simp at hfs
    · rw [hol] at hfs
      simp only [Option.map_some'] at hfs
      have hc : c ∈ entries := by
        have := List.mem_of_find?_eq_some hol
        exact List.mem_reverse.mp this
      obtain rfl := Option.some.inj hfs
      exact hc
  · rw [hdef]
    exact le_trans (List.length_filterMap_le _ _) (List.length_take_le _ _)
  · rw [hdef]
    have hsorted : List.Pairwise scoreGe (sortScores scores) :=
      List.sorted_insertionSort scoreGe scores
    have htake : List.Pairwise scoreGe ((sortScores scores).take TOP_N) :=
      List.Pairwise.sublist (List.take_sublist _ _) hsorted
    refine List.Pairwise.filterMap _ ?_ htake
    intro a b hab x hx y hy
    rcases ha : linkLookup entries a.link with _ | ca <;> rw [ha] at hx <;>
      simp only [Option.mem_def, Option.map_some'] at hx
    · cases hx
    rcases hb : linkLookup entries b.link with _ | cb <;> rw [hb] at hy <;>
      simp only [Option.mem_def, Option.map_some'] at hy
    · cases hy
    obtain rfl := Option.some.inj hx
    obtain rfl := Option.some.inj hy
    exact hab
  · intro hall
    rw [hdef]
    rw [length_filterMap_of_isSome]
    · rw [List.length_take]
      have : (sortScores scores).length = scores.length :=
        (List.perm_insertionSort scoreGe scores).length_eq
      rw [this]
    · intro s hs
      have hsmem : s ∈ scores :=
        (List.perm_insertionSort scoreGe scores).mem_iff.mp (List.mem_of_mem_take hs)
      rcases hall s hsmem with ⟨c, hc, hcl⟩
      unfold linkLookup
      simp only [Option.isSome_map', List.find?_isSome]
      exact ⟨c, List.mem_reverse.mpr hc, by simp [hcl]⟩

/-- Witness for C1: a single candidate fully covered by a one-entry
response yields exactly `min TOP_N 1 = 1` selected entry. -/
theorem c1_score_entries_spec_witness :
    (score_entries [⟨"tA", "a", "sA", "p", "hA"⟩]
      [⟨"a", some 1, "ra"⟩]).length = min TOP_N 1 :=
  (c1_score_entries_spec [⟨"tA", "a", "sA", "p", "hA"⟩] [⟨"a", some 1, "ra"⟩]
    (by decide)).2.2.2 (by decide)

/-- C5 (counterexample): ties are NOT broken by the original candidate
order.  With candidates in order a, b and a response in order b, a, both
scored 5, the output keeps the RESPONSE order b, a — not the candidate
order a, b the claim requires. -/
theorem c5_counterexample :
    (score_entries
        [⟨"tA", "a", "sA", "p", "hA"⟩, ⟨"tB", "b", "sB", "p", "hB"⟩]
        [⟨"b", some 5, "rb"⟩, ⟨"a", some 5, "ra"⟩]).map (fun e => e.entry.link) =
      ["b", "a"] ∧
    (["b", "a"] : List String) ≠ ["a", "b"] := by
  constructor <;> decide

/-- C5 (amended): the scored entries are sorted by score descending with a
stable sort whose ties are broken by the order of entries in the ORACLE'S
RESPONSE (not the original candidate order), then truncated to `k`: the
sort permutes the response, is weakly descending on the key
`x.get("score", 0)`, and any weakly-descending subsequence of the response
— in particular any pair of tied entries in response order — survives as a
subsequence of the sorted list; `score_entries` then keeps the first
`TOP_N` of it and resolves links against the candidates. -/
theorem c5_sort_spec (entries : List Candidate) (scores : List ScoreResp) :
    (sortScores scores).Perm scores ∧
    List.Pairwise scoreGe (sortScores scores) ∧
    (∀ c : List ScoreResp, c.Sublist scores → c.Pairwise scoreGe →
      c.Sublist (sortScores scores)) ∧
    (entries ≠ [] →
      score_entries entries scores =
        ((sortScores scores).take TOP_N).filterMap (fun s =>
          (linkLookup entries s.link).map fun e => ⟨e, s.score, s.reason⟩)) := by
  refine ⟨List.perm_insertionSort scoreGe scores,
    List.sorted_insertionSort scoreGe scores, ?_, ?_⟩
  · intro c hsub hpair
    exact List.sublist_insertionSort hpair hsub
  · intro hne
    have hE : entries.isEmpty = false := by simp [hne]
    simp [score_entries, hE]

/-- Witness for C5: two tied response entries stay in response order
through the sort, and the selection equation holds at a concrete
candidate list. -/
theorem c5_sort_spec_witness :
    ([⟨"b", some 5, "rb"⟩, ⟨"a", some 5, "ra"⟩] : List ScoreResp).Sublist
      (sortScores [⟨"b", some 5, "rb"⟩, ⟨"a", some 5, "ra"⟩]) ∧
    score_entries [⟨"tA", "a", "sA", "p", "hA"⟩] [⟨"a", some 1, "ra"⟩] =
      ((sortScores [⟨"a", some 1, "ra"⟩]).take TOP_N).filterMap (fun s =>
        (linkLookup [⟨"tA", "a", "sA", "p", "hA"⟩] s.link).map fun e =>
          ⟨e, s.score, s.reason⟩) :=
  ⟨(c5_sort_spec [] [⟨"b", some 5, "rb"⟩, ⟨"a", some 5, "ra"⟩]).2.2.1
      [⟨"b", some 5, "rb"⟩, ⟨"a", some 5, "ra"⟩] (List.Sublist.refl _) (by decide),
   (c5_sort_spec [⟨"tA", "a", "sA", "p", "hA"⟩] [⟨"a", some 1, "ra"⟩]).2.2.2
      (by decide)⟩

/-- C2 (confirmed): a fatal scoring- or synthesis-oracle failure makes the
process exit before the persistence step, so nothing is ever handed to
`save_sent_hashes` and the Dedup Store keeps exactly its loaded contents;
when both oracle calls succeed (and the run has candidates and a non-empty
top selection), the run persists the re-loaded store unioned with the
fingerprints of exactly the scored top-K entries — not of all candidates —
for every delivery behaviour whatsoever. -/
theorem c2_main_spec (store : Finset String) (cands : List Candidate)
    (synthO : OracleResult RawReport) (today : String) (d : Nat → SinkOutcome) :
    (main_model store cands OracleResult.failure synthO today d).storeWritten = none ∧
    (∀ scores, (main_model store cands (OracleResult.ok scores)
        OracleResult.failure today d).storeWritten = none) ∧
    (cands ≠ [] →
      (main_model store cands OracleResult.failure synthO today d).fatalExit = true) ∧
    (∀ scores, cands ≠ [] → score_entries cands scores ≠ [] →
      (main_model store cands (OracleResult.ok scores)
        OracleResult.failure today d).fatalExit = true) ∧
    (∀ scores raw, cands ≠ [] → score_entries cands scores ≠ [] →
      main_model store cands (OracleResult.ok scores) (OracleResult.ok raw) today d =
        { fatalExit := false
          storeWritten := some (store ∪
            ((score_entries cands scores).map (fun e => e.entry.hash)).toFinset) }) := by
  refine ⟨?_, ?_, ?_, ?_, ?_⟩
  · by_cases hc : cands.isEmpty <;> simp [main_model, hc]
  · intro scores
    by_cases hc : cands.isEmpty
    · simp [main_model, hc]
    · by_cases ht : (score_entries cands scores).isEmpty <;>
        simp [main_model, hc, ht]
  · intro hne
    have hc : cands.isEmpty = false := by simp [hne]
    simp [main_model, hc]
  · intro scores hne htop
    have hc : cands.isEmpty = false := by simp [hne]
    have ht : (score_entries cands scores).isEmpty = false := by simp [htop]
    simp [main_model, hc, ht]
  · intro scores raw hne htop
    have hc : cands.isEmpty = false := by simp [hne]
    have ht : (score_entries cands scores).isEmpty = false := by simp [htop]
    simp [main_model, hc, ht]

/-- Witness for C2: a one-candidate run with both oracles succeeding
persists the loaded store unioned with the single top entry's hash, under
a delivery that fails every attempt. -/
theorem c2_main_spec_witness :
    main_model {"h0"} [⟨"t", "a", "s", "p", "h1"⟩]
        (OracleResult.ok [⟨"a", some 1, "r"⟩])
        (OracleResult.ok ⟨none, none, ItemsField.absent⟩) "d"
        (fun _ => SinkOutcome.exn) =
      { fatalExit := false
        storeWritten := some ({"h0"} ∪
          ((score_entries [⟨"t", "a", "s", "p", "h1"⟩]
            [⟨"a", some 1, "r"⟩]).map (fun e => e.entry.hash)).toFinset) } :=
  (c2_main_spec {"h0"} [⟨"t", "a", "s", "p", "h1"⟩]
      (OracleResult.ok ⟨none, none, ItemsField.absent⟩) "d"
      (fun _ => SinkOutcome.exn)).2.2.2.2
    [⟨"a", some 1, "r"⟩] ⟨none, none, ItemsField.absent⟩ (by decide) (by decide)

/-- C10 (confirmed): whenever a run hands a set to `save_sent_hashes`, that
set is exactly the union of the freshly re-loaded persisted set with the
fingerprints of the scored top-K entries, hence a superset of the loaded
set (the store only grows), and the written file is one fingerprint per
line, sorted ascending, containing exactly that union. -/
theorem c10_persistence_spec (store : Finset String) (cands : List Candidate)
    (sO : OracleResult (List ScoreResp)) (synO : OracleResult RawReport)
    (today : String) (d : Nat → SinkOutcome) (w : Finset String)
    (hw : (main_model store cands sO synO today d).storeWritten = some w) :
    store ⊆ w ∧
    (∃ scores, sO = OracleResult.ok scores ∧
      w = store ∪ ((score_entries cands scores).map (fun e => e.entry.hash)).toFinset) ∧
    List.Sorted (fun a b : String => a ≤ b) (save_sent_hashes w) ∧
    (save_sent_hashes w).toFinset = w := by
  rcases sO with scores | _
  · by_cases hc : cands.isEmpty
    · simp [main_model, hc] at hw
    · by_cases ht : (score_entries cands scores).isEmpty
      · simp [main_model, hc, ht] at hw
      · rcases synO with raw | _
        · have hww : w = store ∪
              ((score_entries cands scores).map (fun e => e.entry.hash)).toFinset := by
            simp [main_model, hc, ht] at hw
            exact hw.symm
          refine ⟨?_, ⟨scores, rfl, hww⟩, ?_, ?_⟩
          · rw [hww]
            exact Finset.subset_union_left
          · exact Finset.sort_sorted (fun a b => a ≤ b) w
          · exact Finset.sort_toFinset _ w
        · simp [main_model, hc, ht] at hw
  · by_cases hc : cands.isEmpty <;> simp [main_model, hc] at hw

/-- Witness for C10: the concrete run of the C2 witness reaches
persistence, and the written set is the loaded store plus the top entry's
fingerprint. -/
theorem c10_persistence_spec_witness :
    ({"h0"} : Finset String) ⊆ ({"h0"} ∪
      ((score_entries [⟨"t", "a", "s", "p", "h1"⟩]
        [⟨"a", some 1, "r"⟩]).map (fun e => e.entry.hash)).toFinset) ∧
    (∃ scores, (OracleResult.ok [(⟨"a", some 1, "r"⟩ : ScoreResp)]) = OracleResult.ok scores ∧
      ({"h0"} ∪ ((score_entries [⟨"t", "a", "s", "p", "h1"⟩]
          [⟨"a", some 1, "r"⟩]).map (fun e => e.entry.hash)).toFinset) =
        {"h0"} ∪ ((score_entries [⟨"t", "a", "s", "p", "h1"⟩]
          scores).map (fun e => e.entry.hash)).toFinset) ∧
    List.Sorted (fun a b : String => a ≤ b)
      (save_sent_hashes ({"h0"} ∪
        ((score_entries [⟨"t", "a", "s", "p", "h1"⟩]
          [⟨"a", some 1, "r"⟩]).map (fun e => e.entry.hash)).toFinset)) ∧
    (save_sent_hashes ({"h0"} ∪
        ((score_entries [⟨"t", "a", "s", "p", "h1"⟩]
          [⟨"a", some 1, "r"⟩]).map (fun e => e.entry.hash)).toFinset)).toFinset =
      ({"h0"} ∪ ((score_entries [⟨"t", "a", "s", "p", "h1"⟩]
        [⟨"a", some 1, "r"⟩]).map (fun e => e.entry.hash)).toFinset) :=
  c10_persistence_spec {"h0"} [⟨"t", "a", "s", "p", "h1"⟩]
    (OracleResult.ok [⟨"a", some 1, "r"⟩])
    (OracleResult.ok ⟨none, none, ItemsField.absent⟩) "d"
    (fun _ => SinkOutcome.exn) _ (by decide)

/-- C6 (amended): re-running the fetch filter after hashes were persisted
removes exactly the candidates whose fingerprints were persisted: the
run-2 candidate list is the run-1 list filtered to fingerprints outside
the persisted increment, and zero candidates survive run 2 iff every run-1
candidate's fingerprint is in the persisted increment.  Since the pipeline
persists only the top-K fingerprints (see C2/C10), fetching the same
entries twice yields zero run-2 candidates only when every run-1 candidate
made the top-K — not in general, as the claim states. -/
theorem c6_dedup_spec (parse : String → Option ParsedTime) (now : Int)
    (sent extra : Finset String) (entries : List FeedEntry) :
    fetch_filter parse now (sent ∪ extra) entries =
      (fetch_filter parse now sent entries).filter
        (fun c => decide (c.hash ∉ extra)) ∧
    (fetch_filter parse now (sent ∪ extra) entries = [] ↔
      ∀ c ∈ fetch_filter parse now sent entries, c.hash ∈ extra) := by
  have key : fetch_filter parse now (sent ∪ extra) entries =
      (fetch_filter parse now sent entries).filter
        (fun c => decide (c.hash ∉ extra)) := by
    induction entries with
    | nil => rfl
    | cons e t ih =>
      simp only [fetch_filter, List.filterMap_cons] at ih ⊢
      by_cases h1 : e.link = ""
      · simpa [h1] using ih
      · by_cases h2 : hash_link e.link ∈ sent
        · have h12 : hash_link e.link ∈ sent ∪ extra := Finset.mem_union_left _ h2
          simpa [h1, h2, h12] using ih
        · by_cases h3 : hash_link e.link ∈ extra
          · have h12 : hash_link e.link ∈ sent ∪ extra := Finset.mem_union_right _ h3
            by_cases h4 : is_recent parse now HOURS_WINDOW e.published <;>
              simpa [h1, h2, h3, h12, h4, List.filter_cons] using ih
          · have h12 : hash_link e.link ∉ sent ∪ extra := by
              simp [Finset.mem_union, h2, h3]
            by_cases h4 : is_recent parse now HOURS_WINDOW e.published <;>
              simpa [h1, h2, h3, h12, h4, List.filter_cons] using ih
  refine ⟨key, ?_⟩
  rw [key, List.filter_eq_nil_iff]
  simp

set_option maxRecDepth 40000 in
/-- C6 (counterexample): four fresh in-window entries are fetched in run 1;
the oracle scores all four; only the top 3 fingerprints are persisted
(`main` persists top-K only); re-fetching the same entries in run 2 leaves
one surviving candidate — not zero as the claim states. -/
theorem c6_counterexample :
    (fetch_filter (fun _ => some ⟨0, none⟩) 0 ∅ c6entries).length = 4 ∧
    (fetch_filter (fun _ => some ⟨0, none⟩) 0
        (∅ ∪ ((score_entries
          (fetch_filter (fun _ => some ⟨0, none⟩) 0 ∅ c6entries)
          c6scores).map (fun e => e.entry.hash)).toFinset)
        c6entries).map (fun c => c.link) = ["d"] := by
  constructor <;> decide

end SendAiDaily
